import Mathlib

/-!
Verification development for the avatar conversation front-end.

The definitions below are a shallow embedding of the repository's core
service, `AzureAvatarRealTimeService` (session lifecycle, serialized speak
queue, SSML construction, negotiation retry loop), together with the
speech-recognition debounce/dedup handler and the microphone-mute policy of
the React `App` component.  Stateful code is modelled by explicit state
passing: the asynchronous methods become step functions on an explicit
machine state, with the settling of the underlying synthesis call and timer
firings made explicit trace events.  All definitions are executable.
-/

namespace Avatar

/-! ### SSML construction (`createSSML`)

Embeds `AzureAvatarRealTimeService.createSSML`: the source applies
`text.replace` with a character class matching the three characters
`&`, `<`, `>`, mapping `&` to the amp entity, `<` to the lt entity and the
remaining matched character (`>`) to the gt entity; all other characters
are copied verbatim.  A global regex replace over a single-character class
is exactly a character-by-character map. -/

/-- One step of the replace callback of `createSSML`: the escaped form of a
single character. -/
def escapeSsmlChar (c : Char) : String :=
  if c = '&' then "&amp;"
  else if c = '<' then "&lt;"
  else if c = '>' then "&gt;"
  else String.singleton c

/-- The encoded text produced by the global replace in `createSSML`. -/
def encodeSsmlText : List Char → String
  | [] => ""
  | c :: cs => escapeSsmlChar c ++ encodeSsmlText cs

/-- The fixed markup text that precedes the escaped text in `createSSML`,
for a given voice. -/
def ssmlOpen (voice : String) : String :=
  "<speak version=\"1.0\" xml:lang=\"en-US\"><voice name=\"" ++ voice ++ "\">"

/-- The fixed markup text that follows the escaped text in `createSSML`. -/
def ssmlClose : String :=
  "</voice></speak>"

/-- Embedding of `AzureAvatarRealTimeService.createSSML`. -/
def createSSML (text voice : String) : String :=
  ssmlOpen voice ++ encodeSsmlText text.toList ++ ssmlClose

/-- Spec-side escaping, written from the spec's words for comparison with
the source definition: each occurrence of the ampersand, less-than and
greater-than characters is replaced by its entity, and nothing else is
changed. -/
def specEscapeText : List Char → String
  | [] => ""
  | '&' :: cs => "&amp;" ++ specEscapeText cs
  | '<' :: cs => "&lt;" ++ specEscapeText cs
  | '>' :: cs => "&gt;" ++ specEscapeText cs
  | c :: cs => String.singleton c ++ specEscapeText cs

/-! ### Negotiation retry loop (`startAvatarWithRetry`)

Embeds the retry loop of `startAvatarWithRetry`: at most `maxRetries`
attempts in total; a failed attempt other than the last is followed by a
delay of `baseDelay * 2 ^ (attempt - 1)` milliseconds; failure of the last
attempt rethrows immediately.  `attemptSucceeds n` is the outcome the
negotiation oracle injects for attempt number `n` (1-based); the result
records whether the loop succeeded together with the total backoff delay
(in milliseconds) accumulated before it settled. -/

/-- The `maxRetries` constant of `startAvatarWithRetry`. -/
def maxRetries : Nat := 3

/-- The `baseDelay` constant of `startAvatarWithRetry` (milliseconds). -/
def baseDelay : Nat := 2000

/-- The `for` loop body of `startAvatarWithRetry`; `fuel` bounds the number
of remaining iterations and is chosen so that the loop runs exactly for
attempts `1..maxRetries` as in the source. -/
def startAvatarAttempts (attemptSucceeds : Nat → Bool) :
    Nat → Nat → Nat → Bool × Nat
  | 0, _, acc => (false, acc)
  | fuel + 1, attempt, acc =>
    if attemptSucceeds attempt then
      (true, acc)
    else if attempt = maxRetries then
      (false, acc)
    else
      startAvatarAttempts attemptSucceeds fuel (attempt + 1)
        (acc + baseDelay * 2 ^ (attempt - 1))

/-- Embedding of `startAvatarWithRetry`: runs the attempts from attempt 1
with no delay accumulated yet. -/
def startAvatarWithRetry (attemptSucceeds : Nat → Bool) : Bool × Nat :=
  startAvatarAttempts attemptSucceeds maxRetries 1 0

/-! ### The speak queue machine

Embeds the mutable state of `AzureAvatarRealTimeService` together with the
event-loop behaviour of its `speak`, `processNextInQueue` and
`stopSpeaking` methods.  The service runs on the single-threaded browser
event loop, so its behaviour is a deterministic step function over an
explicit trace of events:

* `MEvent.arrive r` — a `speak()` call reaches the service;
* `MEvent.settle o` — the awaited `speakSsmlAsync` promise of the oldest
  outstanding dispatch settles with outcome `o`, running the `finally`
  block (`isSpeaking = false`; `processNextInQueue()`) and settling the
  corresponding caller promise;
* `MEvent.stopSpeak` — a `stopSpeaking()` call runs (the race against the
  one-second timer only affects logging, not the state outcome).

The machine additionally records, as history variables, the requests
dispatched to the synthesis backend in dispatch order, the promises
settled so far, the number of dispatches that have settled, and the
lifecycle events emitted. -/

/-- One entry of `speakQueue`: the text, the optional voice, and (standing
for the closure's `resolve`/`reject` pair) a request identifier used to
track the fate of the caller's promise. -/
structure SpeakRequest where
  id : Nat
  text : String
  voice : Option String
  deriving Repr, DecidableEq

/-- The fate of a `speak()` caller promise in the model. -/
inductive PromiseStatus where
  | pending
  | resolved
  | rejectedSessionNotActive
  | rejectedSynthesis
  deriving Repr, DecidableEq

/-- Lifecycle events emitted through `emitEvent`, restricted to the data
the claims need (the request id of the speak request concerned). -/
inductive AvatarEvent where
  | speakingStarted (id : Nat)
  | speakingCompleted (id : Nat)
  | speakingError (id : Nat)
  | speakingStopped
  | sessionStarted
  | sessionStopped
  | sessionError
  deriving Repr, DecidableEq

/-- How the awaited `speakSsmlAsync` promise settles: resolved with the
completed reason, resolved with any other reason, or rejected. -/
inductive DispatchOutcome where
  | completed
  | failedResult
  | threw
  deriving Repr, DecidableEq

/-- The mutable fields of `AzureAvatarRealTimeService` relevant to the
claims (`avatarSynthesizer` is abstracted to whether it is non-null). -/
structure AvatarState where
  hasSynthesizer : Bool
  isSessionActive : Bool
  isSessionStarting : Bool
  isSpeaking : Bool
  speakQueue : List SpeakRequest
  deriving Repr, DecidableEq

/-- The machine: service state plus history variables.  `inFlight` is the
list of dispatches whose `speakSsmlAsync` promise has not settled yet, in
dispatch order (in the traces of interest it holds at most one element). -/
structure Machine where
  st : AvatarState
  inFlight : List SpeakRequest
  dispatched : List Nat
  settled : List (Nat × PromiseStatus)
  settledDispatchCount : Nat
  events : List AvatarEvent
  deriving Repr, DecidableEq

/-- Trace events for the speak machine. -/
inductive MEvent where
  | arrive (r : SpeakRequest)
  | settle (o : DispatchOutcome)
  | stopSpeak
  deriving Repr, DecidableEq

/-- Embedding of the synchronous part of `speak` up to its first `await`:
reject when the synthesizer is absent or the session is inactive; enqueue
when a speak is in flight; otherwise set `isSpeaking`, emit
`speakingStarted` and dispatch `speakSsmlAsync`. -/
def stepArrive (m : Machine) (r : SpeakRequest) : Machine :=
  if !(m.st.hasSynthesizer && m.st.isSessionActive) then
    { m with settled := m.settled ++ [(r.id, PromiseStatus.rejectedSessionNotActive)] }
  else if m.st.isSpeaking then
    { m with st := { m.st with speakQueue := m.st.speakQueue ++ [r] } }
  else
    { m with
        st := { m.st with isSpeaking := true },
        inFlight := m.inFlight ++ [r],
        dispatched := m.dispatched ++ [r.id],
        events := m.events ++ [AvatarEvent.speakingStarted r.id] }

/-- The status the caller promise takes when its dispatch settles: a
resolved `speakSsmlAsync` makes `speak` return normally whatever the
result reason says (a non-completed reason only emits `speakingError`),
while a rejected `speakSsmlAsync` is rethrown by `speak`. -/
def settleStatus : DispatchOutcome → PromiseStatus
  | DispatchOutcome.completed => PromiseStatus.resolved
  | DispatchOutcome.failedResult => PromiseStatus.resolved
  | DispatchOutcome.threw => PromiseStatus.rejectedSynthesis

/-- The lifecycle event emitted when a dispatch settles. -/
def settleEvent (id : Nat) : DispatchOutcome → AvatarEvent
  | DispatchOutcome.completed => AvatarEvent.speakingCompleted id
  | DispatchOutcome.failedResult => AvatarEvent.speakingError id
  | DispatchOutcome.threw => AvatarEvent.speakingError id

/-- Embedding of `processNextInQueue`: when the queue is non-empty and
nothing is speaking, shift the head and call `speak` on it (whose guard and
dispatch are as in `stepArrive`; a failing guard rejects the shifted
request through the stored `reject`). -/
def processNext (m : Machine) : Machine :=
  match m.st.speakQueue with
  | [] => m
  | h :: t =>
    if m.st.isSpeaking then m
    else if !(m.st.hasSynthesizer && m.st.isSessionActive) then
      { m with
          st := { m.st with speakQueue := t },
          settled := m.settled ++ [(h.id, PromiseStatus.rejectedSessionNotActive)] }
    else
      { m with
          st := { m.st with speakQueue := t, isSpeaking := true },
          inFlight := m.inFlight ++ [h],
          dispatched := m.dispatched ++ [h.id],
          events := m.events ++ [AvatarEvent.speakingStarted h.id] }

/-- Embedding of the settling of the oldest outstanding `speakSsmlAsync`
followed by the `finally` block of `speak`: settle the caller promise, emit
the completion or error event, clear `isSpeaking`, then run
`processNextInQueue`. -/
def stepSettle (m : Machine) (o : DispatchOutcome) : Machine :=
  match m.inFlight with
  | [] => m
  | r :: rest =>
    processNext
      { m with
          st := { m.st with isSpeaking := false },
          inFlight := rest,
          settled := m.settled ++ [(r.id, settleStatus o)],
          settledDispatchCount := m.settledDispatchCount + 1,
          events := m.events ++ [settleEvent r.id o] }

/-- Embedding of `stopSpeaking`: return early when there is no
synthesizer; otherwise assign the empty array to `speakQueue` (the shifted
closures are dropped without being resolved or rejected), emit
`speakingStopped` (both the success and the timeout branch emit it) and
clear `isSpeaking` in the `finally` block. -/
def stepStop (m : Machine) : Machine :=
  if !m.st.hasSynthesizer then m
  else
    { m with
        st := { m.st with speakQueue := [], isSpeaking := false },
        events := m.events ++ [AvatarEvent.speakingStopped] }

/-- One trace event of the machine. -/
def step (m : Machine) : MEvent → Machine
  | MEvent.arrive r => stepArrive m r
  | MEvent.settle o => stepSettle m o
  | MEvent.stopSpeak => stepStop m

/-- Run a trace of events. -/
def run (m : Machine) : List MEvent → Machine
  | [] => m
  | e :: es => run (step m e) es

/-- The state of `AzureAvatarRealTimeService` right after a successful
`startSession`: synthesizer present, session active, idle, empty queue. -/
def activeState : AvatarState :=
  { hasSynthesizer := true, isSessionActive := true, isSessionStarting := false,
    isSpeaking := false, speakQueue := [] }

/-- The machine at the start of an active session with empty history. -/
def machine0 : Machine :=
  { st := activeState, inFlight := [], dispatched := [], settled := [],
    settledDispatchCount := 0, events := [] }

/-- Embedding of the `getQueueLength` accessor. -/
def getQueueLength (m : Machine) : Nat :=
  m.st.speakQueue.length

/-- Embedding of the `isSpeakingNow` accessor. -/
def isSpeakingNow (m : Machine) : Bool :=
  m.st.isSpeaking

/-- Embedding of the `isActive` accessor. -/
def isActive (m : Machine) : Bool :=
  m.st.isSessionActive

/-- The status of a caller promise in the machine history: the recorded
settlement if there is one, `pending` otherwise. -/
def promiseStatus (m : Machine) (id : Nat) : PromiseStatus :=
  match m.settled.find? (fun p => p.1 = id) with
  | some p => p.2
  | none => PromiseStatus.pending

/-- The ids of the `speak()` calls of a trace, in arrival order. -/
def arrivalIds (t : List MEvent) : List Nat :=
  t.filterMap (fun e =>
    match e with
    | MEvent.arrive r => some r.id
    | _ => none)

/-- Traces that contain no `stopSpeaking` call. -/
def NoStop (t : List MEvent) : Prop :=
  ∀ e ∈ t, e ≠ MEvent.stopSpeak

instance : DecidablePred NoStop := fun t =>
  inferInstanceAs (Decidable (∀ e ∈ t, e ≠ MEvent.stopSpeak))

/-! ### Session start and stop (`startSession`, `stopSession`) -/

/-- The three guarded entry paths of `startSession`, in the order the
source tests them: already active (immediate return), already starting
(poll `isSessionStarting` until it clears, then return), or proceed with a
fresh start. -/
inductive StartDecision where
  | alreadyActive
  | waitForInProgress
  | beginStart
  deriving Repr, DecidableEq

/-- Embedding of the guard structure at the top of `startSession`. -/
def startSessionDecision (s : AvatarState) : StartDecision :=
  if s.isSessionActive then StartDecision.alreadyActive
  else if s.isSessionStarting then StartDecision.waitForInProgress
  else StartDecision.beginStart

/-- Embedding of one `startSession` call.  The second component counts how
many fresh avatar starts this call performed (0 on the already-active and
wait paths).  On the fresh-start path the outcome of the whole negotiation
(`startAvatarWithRetry` and its preceding credential fetch) is injected
through `negotiationSucceeds`; success publishes the active session and
emits `sessionStarted`, failure clears `isSessionStarting`, emits
`sessionError` and rethrows. -/
def startSession (m : Machine) (negotiationSucceeds : Bool) : Machine × Nat :=
  match startSessionDecision m.st with
  | StartDecision.alreadyActive => (m, 0)
  | StartDecision.waitForInProgress => (m, 0)
  | StartDecision.beginStart =>
    if negotiationSucceeds then
      ({ m with
          st := { m.st with hasSynthesizer := true, isSessionActive := true,
                            isSessionStarting := false },
          events := m.events ++ [AvatarEvent.sessionStarted] }, 1)
    else
      ({ m with
          st := { m.st with isSessionStarting := false },
          events := m.events ++ [AvatarEvent.sessionError] }, 1)

/-- Embedding of `stopSession`: return early when the session is not
active; otherwise clear the queue and the speaking flag, run
`stopSpeaking`, release the synthesizer and the peer connection, clear the
session flags and emit `sessionStopped`.  None of these operations can
fail in the model, matching the source where the only throwing calls are
external resource releases. -/
def stopSession (m : Machine) : Machine :=
  if !m.st.isSessionActive then m
  else
    let m1 := { m with st := { m.st with speakQueue := [], isSpeaking := false } }
    let m2 := stepStop m1
    { m2 with
        st := { m2.st with hasSynthesizer := false, isSessionActive := false,
                           isSessionStarting := false },
        events := m2.events ++ [AvatarEvent.sessionStopped] }

/-! ### Transcript-final debounce and dedup (App `onRecognized` callback)

Embeds the `onRecognized` callback installed by `startListening` in the
App component, together with its two timers: the 150 ms debounce timeout
(`messageTimeoutRef`) and the 1000 ms reset of `isProcessingMessageRef`.
`RecoEvent.recognizedFinal t` is the arrival of a final transcript,
`RecoEvent.debounceFire` is the firing of the currently pending debounce
timeout (a cleared timeout never fires, which the `Option` state captures:
setting a new timeout replaces the pending one), and
`RecoEvent.processingReset` is the firing of the reset timer. -/

/-- Embedding of the JavaScript `toLowerCase` method: lower-case every
character. -/
def jsToLower (s : String) : String :=
  String.mk (s.data.map Char.toLower)

/-- Embedding of the JavaScript `trim` method: strip leading and trailing
whitespace. -/
def jsTrim (s : String) : String :=
  String.mk (((s.data.dropWhile Char.isWhitespace).reverse.dropWhile
    Char.isWhitespace).reverse)

/-- Whether `needle` occurs inside `haystack`, as the JavaScript string
`includes` method used by the dedup check. -/
def containsSubstring : List Char → List Char → Bool
  | needle, [] => needle.isEmpty
  | needle, c :: rest => needle.isPrefixOf (c :: rest) || containsSubstring needle rest

/-- The near-duplicate check of the `onRecognized` callback, on the
lower-cased candidate (`trimmed`) and the lower-cased previously processed
message (`last`): exact equality, or (`last` non-empty and) `trimmed`
contains `last` with a length difference below 5. -/
def skipAsDuplicate (trimmed last : String) : Bool :=
  trimmed == last ||
    (last != "" && containsSubstring last.toList trimmed.toList &&
      decide ((trimmed.length : Int) - (last.length : Int) < 5))

/-- The state touched by the `onRecognized` callback:
`lastProcessed` is `lastProcessedMessageRef`, `isProcessingMessage` is
`isProcessingMessageRef`, `pendingFinal` is the text captured by the
currently pending debounce timeout (`messageTimeoutRef`), and
`sentMessages` records the texts forwarded to `botService.sendMessage`. -/
structure RecoState where
  lastProcessed : String
  isProcessingMessage : Bool
  pendingFinal : Option String
  sentMessages : List String
  deriving Repr, DecidableEq

/-- The initial recognition state of the App component. -/
def recoInit : RecoState :=
  { lastProcessed := "", isProcessingMessage := false, pendingFinal := none,
    sentMessages := [] }

/-- Embedding of the `onRecognized` callback body: ignore blank finals;
skip near-duplicates of the last processed message; skip while a previous
dispatch is still being processed; otherwise clear any pending debounce
timeout and start a new one capturing this text. -/
def onRecognizedFinal (s : RecoState) (text : String) : RecoState :=
  if jsTrim text == "" then s
  else if skipAsDuplicate (jsToLower (jsTrim text)) (jsToLower s.lastProcessed) then s
  else if s.isProcessingMessage then s
  else { s with pendingFinal := some text }

/-- Embedding of the debounce timeout body: mark processing, record the
trimmed text as last processed, and forward the text to the bot. -/
def onDebounceTimeout (s : RecoState) : RecoState :=
  match s.pendingFinal with
  | none => s
  | some text =>
    { s with
        isProcessingMessage := true,
        lastProcessed := jsTrim text,
        sentMessages := s.sentMessages ++ [text],
        pendingFinal := none }

/-- Embedding of the deferred reset of `isProcessingMessageRef`. -/
def onProcessingReset (s : RecoState) : RecoState :=
  { s with isProcessingMessage := false }

/-- Trace events for the recognition handler. -/
inductive RecoEvent where
  | recognizedFinal (text : String)
  | debounceFire
  | processingReset
  deriving Repr, DecidableEq

/-- One trace event of the recognition handler. -/
def recoStep (s : RecoState) : RecoEvent → RecoState
  | RecoEvent.recognizedFinal t => onRecognizedFinal s t
  | RecoEvent.debounceFire => onDebounceTimeout s
  | RecoEvent.processingReset => onProcessingReset s

/-- Run a trace of recognition events. -/
def recoRun (s : RecoState) : List RecoEvent → RecoState
  | [] => s
  | e :: es => recoRun (recoStep s e) es

/-! ### Microphone mute policy of this App variant

Embeds the listening/mute state of the App component and the handlers that
touch it: `startListening` (the unmute button), `stopListening` (the mute
button), and the avatar player's `onSpeakingStart`/`onSpeakingStop`
callbacks, which in this variant only update `isAvatarSpeaking`. -/

/-- The App component state relevant to the mute policy. -/
structure AppMicState where
  isListening : Bool
  isMicrophoneMuted : Bool
  isAvatarSpeaking : Bool
  deriving Repr, DecidableEq

/-- The `useState` initial values of the App component: not listening, and
the microphone starts muted. -/
def appMicInit : AppMicState :=
  { isListening := false, isMicrophoneMuted := true, isAvatarSpeaking := false }

/-- Embedding of a `startListening` call that is not cut short by a
configuration error: when recognition is already active it only refreshes
the UI state, otherwise it proceeds if permission is granted; both
proceeding paths unmute and mark listening. -/
def startListeningStep (s : AppMicState)
    (recognitionAlreadyActive hasPermission : Bool) : AppMicState :=
  if recognitionAlreadyActive then
    { s with isListening := true, isMicrophoneMuted := false }
  else if !hasPermission then s
  else { s with isListening := true, isMicrophoneMuted := false }

/-- Embedding of `stopListening`: mute and stop listening. -/
def stopListeningStep (s : AppMicState) : AppMicState :=
  { s with isListening := false, isMicrophoneMuted := true }

/-- Embedding of the `onSpeakingStart` callback of this App variant: it
sets `isAvatarSpeaking` and deliberately does not stop recognition. -/
def onSpeakingStartStep (s : AppMicState) : AppMicState :=
  { s with isAvatarSpeaking := true }

/-- Embedding of the `onSpeakingStop` callback of this App variant: it
clears `isAvatarSpeaking` and deliberately does not restart recognition. -/
def onSpeakingStopStep (s : AppMicState) : AppMicState :=
  { s with isAvatarSpeaking := false }

/-- Avatar speaking lifecycle events delivered to the App. -/
inductive AppAvatarEvent where
  | speakingStart
  | speakingStop
  deriving Repr, DecidableEq

/-- One avatar lifecycle event of the App. -/
def appAvatarStep (s : AppMicState) : AppAvatarEvent → AppMicState
  | AppAvatarEvent.speakingStart => onSpeakingStartStep s
  | AppAvatarEvent.speakingStop => onSpeakingStopStep s

/-- Run a trace of avatar lifecycle events with no user mute action. -/
def appAvatarRun (s : AppMicState) : List AppAvatarEvent → AppMicState
  | [] => s
  | e :: es => appAvatarRun (appAvatarStep s e) es

/-! ### Shared helpers for concrete scenarios -/

/-- A concrete speak request with a given id. -/
def rq (n : Nat) : SpeakRequest :=
  { id := n, text := "m", voice := none }

/-- An id the machine holds no reference to: not settled, not queued, not
in flight. -/
def Untouched (m : Machine) (idx : Nat) : Prop :=
  idx ∉ m.settled.map Prod.fst ∧
    idx ∉ m.st.speakQueue.map SpeakRequest.id ∧
    idx ∉ m.inFlight.map SpeakRequest.id

instance : ∀ m idx, Decidable (Untouched m idx) := fun _ _ =>
  inferInstanceAs (Decidable (_ ∧ _ ∧ _))

/-- A machine with one request in flight (id 1) and ids 2, 3, 4 queued. -/
def busyMachine : Machine :=
  run machine0 [MEvent.arrive (rq 1), MEvent.arrive (rq 2),
    MEvent.arrive (rq 3), MEvent.arrive (rq 4)]

/-- A continuation trace: the in-flight dispatch settles, a fresh request
arrives and its dispatch settles too. -/
def afterStopTrace : List MEvent :=
  [MEvent.settle DispatchOutcome.completed, MEvent.arrive (rq 9),
    MEvent.settle DispatchOutcome.threw]

/-- The reachable-state invariant of an active session: synthesizer
present, session active, the speaking flag tracks whether a dispatch is
outstanding, at most one dispatch is outstanding, the number of dispatches
equals the settled dispatches plus the outstanding ones, and a non-empty
queue always has a dispatch outstanding. -/
def MachineInv (m : Machine) : Prop :=
  m.st.hasSynthesizer = true ∧
    m.st.isSessionActive = true ∧
    m.st.isSpeaking = !m.inFlight.isEmpty ∧
    m.inFlight.length ≤ 1 ∧
    m.dispatched.length = m.settledDispatchCount + m.inFlight.length ∧
    (m.st.speakQueue.isEmpty = false → m.inFlight.isEmpty = false)

/-! ### Helper lemmas -/

/-- Escaping a character agrees with the spec-side case analysis. -/
theorem specEscapeText_cons (c : Char) (cs : List Char) :
    specEscapeText (c :: cs) = escapeSsmlChar c ++ specEscapeText cs := by
  by_cases h1 : c = '&'
  · subst h1; rfl
  · by_cases h2 : c = '<'
    · subst h2; rfl
    · by_cases h3 : c = '>'
      · subst h3; rfl
      · simp only [specEscapeText, escapeSsmlChar, if_neg h1, if_neg h2, if_neg h3]

/-- The source encoding equals the spec-side encoding. -/
theorem encodeSsmlText_eq_spec (l : List Char) :
    encodeSsmlText l = specEscapeText l := by
  induction l with
  | nil => rfl
  | cons c cs ih => rw [specEscapeText_cons, encodeSsmlText, ih]

/-- The reject branch of `speak`. -/
theorem stepArrive_reject (m : Machine) (r : SpeakRequest)
    (hc : (m.st.hasSynthesizer && m.st.isSessionActive) = false) :
    stepArrive m r =
      { m with settled := m.settled ++ [(r.id, PromiseStatus.rejectedSessionNotActive)] } := by
  simp [stepArrive, hc]

/-- The enqueue branch of `speak`. -/
theorem stepArrive_enqueue (m : Machine) (r : SpeakRequest)
    (hc : (m.st.hasSynthesizer && m.st.isSessionActive) = true)
    (hsp : m.st.isSpeaking = true) :
    stepArrive m r =
      { m with st := { m.st with speakQueue := m.st.speakQueue ++ [r] } } := by
  simp [stepArrive, hc, hsp]

/-- The dispatch branch of `speak`. -/
theorem stepArrive_dispatch (m : Machine) (r : SpeakRequest)
    (hc : (m.st.hasSynthesizer && m.st.isSessionActive) = true)
    (hsp : m.st.isSpeaking = false) :
    stepArrive m r =
      { m with
          st := { m.st with isSpeaking := true },
          inFlight := m.inFlight ++ [r],
          dispatched := m.dispatched ++ [r.id],
          events := m.events ++ [AvatarEvent.speakingStarted r.id] } := by
  simp [stepArrive, hc, hsp]

/-- Settling with nothing in flight is a no-op. -/
theorem stepSettle_nil (m : Machine) (o : DispatchOutcome)
    (hf : m.inFlight = []) : stepSettle m o = m := by
  unfold stepSettle
  rw [hf]

/-- Settling the oldest in-flight dispatch. -/
theorem stepSettle_cons (m : Machine) (o : DispatchOutcome) (r : SpeakRequest)
    (rest : List SpeakRequest) (hf : m.inFlight = r :: rest) :
    stepSettle m o =
      processNext
        { m with
            st := { m.st with isSpeaking := false },
            inFlight := rest,
            settled := m.settled ++ [(r.id, settleStatus o)],
            settledDispatchCount := m.settledDispatchCount + 1,
            events := m.events ++ [settleEvent r.id o] } := by
  unfold stepSettle
  rw [hf]

/-- `processNextInQueue` with an empty queue is a no-op. -/
theorem processNext_nil (m : Machine) (hq : m.st.speakQueue = []) :
    processNext m = m := by
  unfold processNext
  rw [hq]

/-- `processNextInQueue` while speaking is a no-op. -/
theorem processNext_busy (m : Machine) (h' : SpeakRequest) (t : List SpeakRequest)
    (hq : m.st.speakQueue = h' :: t) (hsp : m.st.isSpeaking = true) :
    processNext m = m := by
  unfold processNext
  rw [hq]
  simp [hsp]

/-- `processNextInQueue` on an inactive session rejects the head. -/
theorem processNext_reject (m : Machine) (h' : SpeakRequest) (t : List SpeakRequest)
    (hq : m.st.speakQueue = h' :: t) (hsp : m.st.isSpeaking = false)
    (hc : (m.st.hasSynthesizer && m.st.isSessionActive) = false) :
    processNext m =
      { m with
          st := { m.st with speakQueue := t },
          settled := m.settled ++ [(h'.id, PromiseStatus.rejectedSessionNotActive)] } := by
  unfold processNext
  rw [hq]
  simp [hsp, hc]

/-- `processNextInQueue` dispatches the head of the queue. -/
theorem processNext_dispatch (m : Machine) (h' : SpeakRequest) (t : List SpeakRequest)
    (hq : m.st.speakQueue = h' :: t) (hsp : m.st.isSpeaking = false)
    (hc : (m.st.hasSynthesizer && m.st.isSessionActive) = true) :
    processNext m =
      { m with
          st := { m.st with speakQueue := t, isSpeaking := true },
          inFlight := m.inFlight ++ [h'],
          dispatched := m.dispatched ++ [h'.id],
          events := m.events ++ [AvatarEvent.speakingStarted h'.id] } := by
  unfold processNext
  rw [hq]
  simp [hsp, hc]

/-- `stopSpeaking` without a synthesizer is a no-op. -/
theorem stepStop_noSynth (m : Machine) (hs : m.st.hasSynthesizer = false) :
    stepStop m = m := by
  simp [stepStop, hs]

/-- `stopSpeaking` with a synthesizer clears the queue and the speaking
flag and emits `speakingStopped`. -/
theorem stepStop_clear (m : Machine) (hs : m.st.hasSynthesizer = true) :
    stepStop m =
      { m with
          st := { m.st with speakQueue := [], isSpeaking := false },
          events := m.events ++ [AvatarEvent.speakingStopped] } := by
  simp [stepStop, hs]

/-- A machine holding no reference to an id keeps holding none across
`processNext`. -/
theorem untouched_processNext (m : Machine) (idx : Nat)
    (h : Untouched m idx) : Untouched (processNext m) idx := by
  obtain ⟨h1, h2, h3⟩ := h
  rcases hq : m.st.speakQueue with _ | ⟨h', t⟩
  · rw [processNext_nil m hq]
    exact ⟨h1, h2, h3⟩
  · rw [hq] at h2
    simp only [List.map_cons, List.mem_cons, not_or] at h2
    obtain ⟨hh, ht⟩ := h2
    rcases hsp : m.st.isSpeaking with _ | _
    · rcases hc : (m.st.hasSynthesizer && m.st.isSessionActive) with _ | _
      · rw [processNext_reject m h' t hq hsp hc]
        refine ⟨?_, ht, h3⟩
        simp only [List.map_append, List.mem_append, List.map_cons, List.map_nil,
          List.mem_singleton, not_or]
        exact ⟨h1, hh⟩
      · rw [processNext_dispatch m h' t hq hsp hc]
        refine ⟨h1, ht, ?_⟩
        simp only [List.map_append, List.mem_append, List.map_cons, List.map_nil,
          List.mem_singleton, not_or]
        exact ⟨h3, hh⟩
    · rw [processNext_busy m h' t hq hsp]
      refine ⟨h1, ?_, h3⟩
      rw [hq]
      simp only [List.map_cons, List.mem_cons, not_or]
      exact ⟨hh, ht⟩

/-- A machine holding no reference to an id keeps holding none across any
step whose arrival (if any) carries a different id. -/
theorem untouched_step (m : Machine) (e : MEvent) (idx : Nat)
    (he : idx ∉ arrivalIds [e]) (h : Untouched m idx) :
    Untouched (step m e) idx := by
  obtain ⟨h1, h2, h3⟩ := h
  cases e with
  | arrive r =>
    have hne : idx ≠ r.id := by
      simp [arrivalIds] at he
      exact he
    show Untouched (stepArrive m r) idx
    rcases hc : (m.st.hasSynthesizer && m.st.isSessionActive) with _ | _
    · rw [stepArrive_reject m r hc]
      refine ⟨?_, h2, h3⟩
      simp only [List.map_append, List.mem_append, List.map_cons, List.map_nil,
        List.mem_singleton, not_or]
      exact ⟨h1, hne⟩
    · rcases hsp : m.st.isSpeaking with _ | _
      · rw [stepArrive_dispatch m r hc hsp]
        refine ⟨h1, h2, ?_⟩
        simp only [List.map_append, List.mem_append, List.map_cons, List.map_nil,
          List.mem_singleton, not_or]
        exact ⟨h3, hne⟩
      · rw [stepArrive_enqueue m r hc hsp]
        refine ⟨h1, ?_, h3⟩
        simp only [List.map_append, List.mem_append, List.map_cons, List.map_nil,
          List.mem_singleton, not_or]
        exact ⟨h2, hne⟩
  | settle o =>
    show Untouched (stepSettle m o) idx
    rcases hf : m.inFlight with _ | ⟨r, rest⟩
    · rw [stepSettle_nil m o hf]
      exact ⟨h1, h2, h3⟩
    · rw [hf] at h3
      simp only [List.map_cons, List.mem_cons, not_or] at h3
      obtain ⟨hh, ht⟩ := h3
      rw [stepSettle_cons m o r rest hf]
      apply untouched_processNext
      refine ⟨?_, h2, ht⟩
      simp only [List.map_append, List.mem_append, List.map_cons, List.map_nil,
        List.mem_singleton, not_or]
      exact ⟨h1, hh⟩
  | stopSpeak =>
    show Untouched (stepStop m) idx
    rcases hs : m.st.hasSynthesizer with _ | _
    · rw [stepStop_noSynth m hs]
      exact ⟨h1, h2, h3⟩
    · rw [stepStop_clear m hs]
      exact ⟨h1, by simp, h3⟩

/-- Arrival ids of a trace beginning with an arrival. -/
theorem arrivalIds_cons_arrive (r : SpeakRequest) (es : List MEvent) :
    arrivalIds (MEvent.arrive r :: es) = r.id :: arrivalIds es := rfl

/-- Arrival ids of a trace beginning with a settle. -/
theorem arrivalIds_cons_settle (o : DispatchOutcome) (es : List MEvent) :
    arrivalIds (MEvent.settle o :: es) = arrivalIds es := rfl

/-- Arrival ids of a trace beginning with a stop. -/
theorem arrivalIds_cons_stop (es : List MEvent) :
    arrivalIds (MEvent.stopSpeak :: es) = arrivalIds es := rfl

/-- A machine holding no reference to an id keeps holding none across any
trace that never re-arrives with that id. -/
theorem untouched_run (t : List MEvent) (m : Machine) (idx : Nat)
    (ht : idx ∉ arrivalIds t) (h : Untouched m idx) :
    Untouched (run m t) idx := by
  induction t generalizing m with
  | nil => exact h
  | cons e es ih =>
    have hsplit : idx ∉ arrivalIds [e] ∧ idx ∉ arrivalIds es := by
      cases e with
      | arrive r =>
        rw [arrivalIds_cons_arrive] at ht
        simp only [List.mem_cons, not_or] at ht
        refine ⟨?_, ht.2⟩
        rw [arrivalIds_cons_arrive]
        simp only [List.mem_cons, not_or]
        exact ⟨ht.1, by simp [arrivalIds]⟩
      | settle o =>
        rw [arrivalIds_cons_settle] at ht
        exact ⟨by simp [arrivalIds_cons_settle, arrivalIds], ht⟩
      | stopSpeak =>
        rw [arrivalIds_cons_stop] at ht
        exact ⟨by simp [arrivalIds_cons_stop, arrivalIds], ht⟩
    exact ih (step m e) hsplit.2 (untouched_step m e idx hsplit.1 h)

/-- An unsettled id reads back as a pending promise. -/
theorem promiseStatus_of_not_settled (m : Machine) (idx : Nat)
    (h : idx ∉ m.settled.map Prod.fst) :
    promiseStatus m idx = PromiseStatus.pending := by
  unfold promiseStatus
  have : m.settled.find? (fun p => p.1 = idx) = none := by
    rw [List.find?_eq_none]
    intro p hp
    simp only [decide_eq_true_eq]
    intro hc
    exact h (List.mem_map.mpr ⟨p, hp, hc⟩)
  rw [this]

theorem machineInv_machine0 : MachineInv machine0 := by
  refine ⟨rfl, rfl, rfl, by decide, rfl, by decide⟩

theorem step_inv (m : Machine) (e : MEvent) (he : e ≠ MEvent.stopSpeak)
    (h : MachineInv m) :
    MachineInv (step m e) ∧
      (step m e).dispatched ++ (step m e).st.speakQueue.map SpeakRequest.id =
        (m.dispatched ++ m.st.speakQueue.map SpeakRequest.id) ++ arrivalIds [e] := by
  obtain ⟨hsyn, hact, hsp, hlen, hcnt, hqe⟩ := h
  have hc : (m.st.hasSynthesizer && m.st.isSessionActive) = true := by
    simp [hsyn, hact]
  cases e with
  | stopSpeak => exact absurd rfl he
  | arrive r =>
    simp only [step]
    rcases hspc : m.st.isSpeaking with _ | _
    · have hinf : m.inFlight = [] := by
        rw [hspc] at hsp
        cases hf : m.inFlight with
        | nil => rfl
        | cons a l =>
          rw [hf] at hsp
          simp at hsp
      have hqnil : m.st.speakQueue = [] := by
        cases hq : m.st.speakQueue with
        | nil => rfl
        | cons a l =>
          have : m.st.speakQueue.isEmpty = false := by rw [hq]; rfl
          have h2 := hqe this
          rw [hinf] at h2
          simp at h2
      rw [stepArrive_dispatch m r hc hspc]
      constructor
      · refine ⟨hsyn, hact, ?_, ?_, ?_, ?_⟩ <;>
          simp [hinf, hqnil, hcnt]
      · simp [hqnil, hinf, arrivalIds_cons_arrive, arrivalIds]
    · rw [stepArrive_enqueue m r hc hspc]
      have hne : m.inFlight.isEmpty = false := by
        rw [hspc] at hsp
        cases hf : m.inFlight with
        | nil => rw [hf] at hsp; simp at hsp
        | cons a l => rfl
      constructor
      · refine ⟨hsyn, hact, ?_, hlen, hcnt, ?_⟩
        · simpa [hne] using hspc
        · intro _
          exact hne
      · simp [arrivalIds_cons_arrive, arrivalIds]
  | settle o =>
    simp only [step]
    rcases hf : m.inFlight with _ | ⟨r, rest⟩
    · rw [stepSettle_nil m o hf]
      exact ⟨⟨hsyn, hact, hsp, hlen, hcnt, hqe⟩,
        by simp [arrivalIds_cons_settle, arrivalIds]⟩
    · have hrest : rest = [] := by
        rw [hf] at hlen
        simpa using hlen
      subst hrest
      rw [stepSettle_cons m o r [] hf]
      have hcnt1 : m.dispatched.length = m.settledDispatchCount + 1 := by
        rw [hf] at hcnt
        simpa using hcnt
      rcases hq : m.st.speakQueue with _ | ⟨h', t'⟩
      · rw [processNext_nil _ (by simpa using hq)]
        constructor
        · refine ⟨hsyn, hact, by simp, by simp, ?_, ?_⟩
          · simp [hcnt1]
          · simp [hq]
        · simp [hq, arrivalIds_cons_settle, arrivalIds]
      · rw [processNext_dispatch _ h' t' (by simpa using hq) (by simp)
          (by simp [hsyn, hact])]
        constructor
        · refine ⟨hsyn, hact, by simp, by simp, ?_, ?_⟩
          · simp [hcnt1]
          · intro _
            simp
        · simp [hq, arrivalIds_cons_settle, arrivalIds]

theorem run_inv (t : List MEvent) (m : Machine) (hns : NoStop t)
    (h : MachineInv m) :
    MachineInv (run m t) ∧
      (run m t).dispatched ++ (run m t).st.speakQueue.map SpeakRequest.id =
        (m.dispatched ++ m.st.speakQueue.map SpeakRequest.id) ++ arrivalIds t := by
  induction t generalizing m with
  | nil => exact ⟨h, by simp [run, arrivalIds]⟩
  | cons e es ih =>
    have he : e ≠ MEvent.stopSpeak := hns e (List.mem_cons_self e es)
    have hns' : NoStop es := fun x hx => hns x (List.mem_cons_of_mem e hx)
    obtain ⟨h1, h2⟩ := step_inv m e he h
    obtain ⟨h3, h4⟩ := ih (step m e) hns' h1
    refine ⟨by simpa [run] using h3, ?_⟩
    have hr : run m (e :: es) = run (step m e) es := rfl
    have hsplit : arrivalIds (e :: es) = arrivalIds [e] ++ arrivalIds es := by
      cases e with
      | arrive r => simp [arrivalIds_cons_arrive, arrivalIds]
      | settle o => simp [arrivalIds_cons_settle, arrivalIds]
      | stopSpeak => simp [arrivalIds_cons_stop, arrivalIds]
    rw [hr, h4, h2, hsplit]
    simp only [List.append_assoc]

/-- Lower-casing the empty string gives the empty string. -/
theorem jsToLower_empty : jsToLower "" = "" := rfl

/-- Lower-casing a non-empty string gives a non-empty string. -/
theorem jsToLower_ne_empty (s : String) (h : (s == "") = false) :
    (jsToLower s == "") = false := by
  cases s with
  | mk data =>
    cases data with
    | nil => simp at h
    | cons c cs =>
      simp only [jsToLower, beq_eq_false_iff_ne, ne_eq]
      intro hcontra
      have h2 : (List.map Char.toLower (c :: cs)) = ("" : String).data :=
        congrArg String.data hcontra
      simp at h2

/-- Against an empty previously-processed message, the dedup check only
tests emptiness of the candidate. -/
theorem skipAsDuplicate_empty_last (s : String) :
    skipAsDuplicate s "" = (s == "") := by
  simp [skipAsDuplicate]

/-- A non-blank final arriving while nothing has been processed yet and no
dispatch is underway replaces the pending debounce timeout. -/
theorem onRecognizedFinal_fresh (s : RecoState) (text : String)
    (hlp : s.lastProcessed = "") (hp : s.isProcessingMessage = false)
    (ht : (jsTrim text == "") = false)
    (htl : (jsToLower (jsTrim text) == "") = false) :
    onRecognizedFinal s text = { s with pendingFinal := some text } := by
  unfold onRecognizedFinal
  rw [hlp, jsToLower_empty, skipAsDuplicate_empty_last]
  simp [ht, htl, hp]

/-- A final that the dedup check classifies as a near-duplicate of the
previously processed message is dropped. -/
theorem onRecognizedFinal_skip (s : RecoState) (text : String)
    (ht : (jsTrim text == "") = false)
    (hskip : skipAsDuplicate (jsToLower (jsTrim text))
      (jsToLower s.lastProcessed) = true) :
    onRecognizedFinal s text = s := by
  unfold onRecognizedFinal
  simp [ht, hskip]

/-! ## Claim theorems -/

/-- C9: before dispatch, `speak` converts its text into the fixed
speak/voice markup wrapper whose body is the text with each occurrence of
the ampersand, less-than and greater-than characters replaced by the
`amp`, `lt` and `gt` entities respectively, and nothing else changed:
`createSSML` equals the spec-side wrapper built with `specEscapeText` for
every input string and voice. -/
theorem createSSML_is_escaped_wrapper (text voice : String) :
    createSSML text voice =
      ssmlOpen voice ++ specEscapeText text.toList ++ ssmlClose := by
  rw [createSSML, encodeSsmlText_eq_spec]

/-- C3 counterexample: when every negotiation attempt fails,
`startAvatarWithRetry` settles after 6000 ms of accumulated backoff delay
(2 s + 4 s: there are only two delays, between consecutive attempts), not
after the 14000 ms (2+4+8 s) the claim states. -/
theorem startAvatarWithRetry_total_delay_not_14s :
    startAvatarWithRetry (fun _ => false) = (false, 6000) ∧
      (startAvatarWithRetry (fun _ => false)).2 ≠ 14000 := by
  decide

/-- C3 amended: `startSession` retries the entire negotiation for at most
3 total attempts, with exponential backoff delays (base 2 s) of 2 s and
4 s between consecutive failed attempts; when every attempt fails it
rejects after 6000 ms (2+4 s) of accumulated backoff delay.  A first
failure followed by success waits exactly 2000 ms; two failures followed
by success wait exactly 6000 ms. -/
theorem startAvatarWithRetry_backoff (f : Nat → Bool)
    (h1 : f 1 = false) (h2 : f 2 = false) (h3 : f 3 = false) :
    startAvatarWithRetry f = (false, 6000) ∧
      (∀ g : Nat → Bool, g 1 = false → g 2 = true →
        startAvatarWithRetry g = (true, 2000)) ∧
      (∀ g : Nat → Bool, g 1 = false → g 2 = false → g 3 = true →
        startAvatarWithRetry g = (true, 6000)) := by
  refine ⟨?_, ?_, ?_⟩
  · simp [startAvatarWithRetry, startAvatarAttempts, maxRetries, baseDelay, h1, h2, h3]
  · intro g hg1 hg2
    simp [startAvatarWithRetry, startAvatarAttempts, maxRetries, baseDelay, hg1, hg2]
  · intro g hg1 hg2 hg3
    simp [startAvatarWithRetry, startAvatarAttempts, maxRetries, baseDelay, hg1, hg2, hg3]

/-- C3 witness: the all-fail oracle satisfies the hypotheses and the
amended conclusion. -/
theorem startAvatarWithRetry_backoff_witness :
    (fun _ : Nat => false) 1 = false ∧
      startAvatarWithRetry (fun _ => false) = (false, 6000) :=
  ⟨rfl, (startAvatarWithRetry_backoff (fun _ => false) rfl rfl rfl).1⟩

/-- C6: a `speak` call made while the session is not active rejects with
the session-not-active error, and neither the service state nor the
emitted lifecycle events change. -/
theorem speak_inactive_rejects (m : Machine) (r : SpeakRequest)
    (h : m.st.isSessionActive = false) :
    stepArrive m r =
        { m with settled := m.settled ++ [(r.id, PromiseStatus.rejectedSessionNotActive)] } ∧
      (stepArrive m r).events = m.events ∧
      (stepArrive m r).st = m.st := by
  refine ⟨?_, ?_, ?_⟩ <;> simp [stepArrive, h]

/-- C6 witness: on a machine whose session never became active, a concrete
speak request is rejected with the session-not-active error and no
lifecycle event is emitted. -/
theorem speak_inactive_rejects_witness :
    (let mi : Machine := { machine0 with st := { activeState with isSessionActive := false } }
     mi.st.isSessionActive = false ∧
       stepArrive mi (rq 1) =
         { mi with settled := [((rq 1).id, PromiseStatus.rejectedSessionNotActive)] }) :=
  ⟨rfl, (speak_inactive_rejects
    { machine0 with st := { activeState with isSessionActive := false } } (rq 1) rfl).1⟩

/-- C7: a `startSession` call made while the session is already active is
a no-op that starts no second session, and a call made while another start
is in progress takes the waiting path and likewise starts no second
session. -/
theorem startSession_guard (m : Machine) (b : Bool) :
    (m.st.isSessionActive = true → startSession m b = (m, 0)) ∧
      (m.st.isSessionActive = false → m.st.isSessionStarting = true →
        startSessionDecision m.st = StartDecision.waitForInProgress ∧
          startSession m b = (m, 0)) := by
  constructor
  · intro h
    simp [startSession, startSessionDecision, h]
  · intro h1 h2
    constructor
    · simp [startSessionDecision, h1, h2]
    · simp [startSession, startSessionDecision, h1, h2]

/-- C7 witness: an already-active machine is left unchanged, and a
machine mid-start takes the waiting path. -/
theorem startSession_guard_witness :
    (machine0.st.isSessionActive = true ∧ startSession machine0 true = (machine0, 0)) ∧
      (let ms : Machine := { machine0 with st := { activeState with
          isSessionActive := false, isSessionStarting := true } }
       ms.st.isSessionActive = false ∧ ms.st.isSessionStarting = true ∧
         startSession ms false = (ms, 0)) :=
  ⟨⟨rfl, (startSession_guard machine0 true).1 rfl⟩,
    ⟨rfl, rfl, ((startSession_guard
      { machine0 with st := { activeState with
          isSessionActive := false, isSessionStarting := true } } false).2 rfl rfl).2⟩⟩

/-- C8: `stopSession` is idempotent: on any machine whose state satisfies
the basic well-formedness of the service (an inactive session is neither
speaking nor holding queued requests), a `stopSession` call produces no
error and leaves an uninitialized state (not active, not speaking, empty
queue), and a second call in a row is an exact no-op, leaving the same
uninitialized state. -/
theorem stopSession_idempotent (m : Machine)
    (h : m.st.isSessionActive = false → m.st.isSpeaking = false ∧ m.st.speakQueue = []) :
    (stopSession m).st.isSessionActive = false ∧
      (stopSession m).st.isSpeaking = false ∧
      (stopSession m).st.speakQueue = [] ∧
      stopSession (stopSession m) = stopSession m := by
  by_cases ha : m.st.isSessionActive
  · by_cases hs : m.st.hasSynthesizer <;>
      simp [stopSession, stepStop, ha, hs]
  · have hb : m.st.isSessionActive = false := by simpa using ha
    obtain ⟨h1, h2⟩ := h hb
    simp [stopSession, hb, h1, h2]

/-- C8 witness: stopping an active session that is mid-speech with a
queued request leaves the uninitialized state, and stopping again is a
no-op. -/
theorem stopSession_idempotent_witness :
    (let mb : Machine := run machine0 [MEvent.arrive (rq 1), MEvent.arrive (rq 2)]
     (mb.st.isSessionActive = false → mb.st.isSpeaking = false ∧ mb.st.speakQueue = []) ∧
       ((stopSession mb).st.isSessionActive = false ∧
         (stopSession mb).st.isSpeaking = false ∧
         (stopSession mb).st.speakQueue = [] ∧
         stopSession (stopSession mb) = stopSession mb)) :=
  ⟨by decide, stopSession_idempotent
    (run machine0 [MEvent.arrive (rq 1), MEvent.arrive (rq 2)]) (by decide)⟩

/-- C2 counterexample: with one request in flight and three requests
queued, `stopSpeaking` leaves the queue empty (`getQueueLength` is 0) but
the three queued promises are not rejected: they are still pending, since
the queue is dropped without settling the stored closures. -/
theorem stopSpeaking_leaves_promises_pending :
    (let ms : Machine := run machine0 [MEvent.arrive (rq 1), MEvent.arrive (rq 2),
      MEvent.arrive (rq 3), MEvent.arrive (rq 4), MEvent.stopSpeak]
     getQueueLength ms = 0 ∧
       promiseStatus ms 2 = PromiseStatus.pending ∧
       promiseStatus ms 3 = PromiseStatus.pending ∧
       promiseStatus ms 4 = PromiseStatus.pending) := by
  decide

/-- C2 amended: `stopSpeaking` discards every queued request without
settling its promise: immediately afterwards the queue length is 0, and a
promise that was queued (and not otherwise referenced) at the moment of
the stop is still pending after any further behaviour of the service that
does not reuse its id — it is never rejected with a cancellation error,
nor resolved. -/
theorem stopSpeaking_discards_queue_silently (m : Machine) (idx : Nat)
    (t : List MEvent)
    (_hq : idx ∈ m.st.speakQueue.map SpeakRequest.id)
    (hsyn : m.st.hasSynthesizer = true)
    (hset : idx ∉ m.settled.map Prod.fst)
    (hinf : idx ∉ m.inFlight.map SpeakRequest.id)
    (harr : idx ∉ arrivalIds t) :
    getQueueLength (stepStop m) = 0 ∧
      promiseStatus (run (stepStop m) t) idx = PromiseStatus.pending := by
  constructor
  · rw [stepStop_clear m hsyn]
    rfl
  · have hu : Untouched (stepStop m) idx := by
      rw [stepStop_clear m hsyn]
      exact ⟨hset, by simp, hinf⟩
    exact promiseStatus_of_not_settled _ idx
      (untouched_run t (stepStop m) idx harr hu).1

/-- C2 amended witness: with one request in flight and three queued, the
queued request with id 3 stays pending across a stop followed by further
settles and a fresh speak request. -/
theorem stopSpeaking_discards_queue_silently_witness :
    3 ∈ busyMachine.st.speakQueue.map SpeakRequest.id ∧
      busyMachine.st.hasSynthesizer = true ∧
      3 ∉ busyMachine.settled.map Prod.fst ∧
      3 ∉ busyMachine.inFlight.map SpeakRequest.id ∧
      3 ∉ arrivalIds afterStopTrace ∧
      getQueueLength (stepStop busyMachine) = 0 ∧
      promiseStatus (run (stepStop busyMachine) afterStopTrace) 3 =
        PromiseStatus.pending := by
  refine ⟨by decide, by decide, by decide, by decide, by decide, ?_, ?_⟩
  · exact (stopSpeaking_discards_queue_silently busyMachine 3 afterStopTrace
      (by decide) (by decide) (by decide) (by decide) (by decide)).1
  · exact (stopSpeaking_discards_queue_silently busyMachine 3 afterStopTrace
      (by decide) (by decide) (by decide) (by decide) (by decide)).2

/-- C5 counterexample: when the synthesis engine reports a non-completed
result for the dispatched request, the `speak` promise resolves rather
than rejecting — only a `speakingError` lifecycle event is emitted — so
the promise does not resolve only on completion and does not reject with
the synthesis error on that failure. -/
theorem speak_failed_result_resolves :
    (let mf : Machine := run machine0 [MEvent.arrive (rq 1),
      MEvent.settle DispatchOutcome.failedResult]
     promiseStatus mf 1 = PromiseStatus.resolved ∧
       mf.events = [AvatarEvent.speakingStarted 1, AvatarEvent.speakingError 1]) := by
  decide

/-- C5 amended: a speak request whose dispatch throws rejects the caller
promise with the synthesis error; a dispatch the engine resolves with a
non-completed reason resolves the promise and emits `speakingError`; and
in every case the failure neither deactivates the session nor aborts the
queue — the next queued request is dispatched and can still complete. -/
theorem speak_failure_is_local :
    promiseStatus (run machine0 [MEvent.arrive (rq 1), MEvent.arrive (rq 2),
        MEvent.settle DispatchOutcome.threw]) 1 = PromiseStatus.rejectedSynthesis ∧
      promiseStatus (run machine0 [MEvent.arrive (rq 1), MEvent.arrive (rq 2),
        MEvent.settle DispatchOutcome.failedResult]) 1 = PromiseStatus.resolved ∧
      (∀ o : DispatchOutcome,
        (run machine0 [MEvent.arrive (rq 1), MEvent.arrive (rq 2),
          MEvent.settle o]).dispatched = [1, 2]) ∧
      (∀ o : DispatchOutcome,
        isActive (run machine0 [MEvent.arrive (rq 1), MEvent.arrive (rq 2),
          MEvent.settle o]) = true) ∧
      (∀ o : DispatchOutcome,
        promiseStatus (run machine0 [MEvent.arrive (rq 1), MEvent.arrive (rq 2),
          MEvent.settle o, MEvent.settle DispatchOutcome.completed]) 2 =
            PromiseStatus.resolved) := by
  refine ⟨by decide, by decide, ?_, ?_, ?_⟩ <;> intro o <;> cases o <;> decide

/-- C10: in this App variant the microphone starts muted, the
avatar-speaking lifecycle callbacks change neither the listening state nor
the mute state, and any trace consisting only of avatar speaking events
leaves the listening and mute state untouched: listening changes only
through the explicit user start/stop actions. -/
theorem mic_starts_muted_and_avatar_events_keep_listening :
    appMicInit.isMicrophoneMuted = true ∧
      (∀ s : AppMicState,
        (onSpeakingStartStep s).isListening = s.isListening ∧
        (onSpeakingStartStep s).isMicrophoneMuted = s.isMicrophoneMuted ∧
        (onSpeakingStopStep s).isListening = s.isListening ∧
        (onSpeakingStopStep s).isMicrophoneMuted = s.isMicrophoneMuted) ∧
      (∀ (s : AppMicState) (t : List AppAvatarEvent),
        (appAvatarRun s t).isListening = s.isListening ∧
        (appAvatarRun s t).isMicrophoneMuted = s.isMicrophoneMuted) := by
  refine ⟨rfl, fun s => ⟨rfl, rfl, rfl, rfl⟩, fun s t => ?_⟩
  induction t generalizing s with
  | nil => exact ⟨rfl, rfl⟩
  | cons e es ih =>
    cases e <;>
      simpa [appAvatarRun, appAvatarStep, onSpeakingStartStep, onSpeakingStopStep]
        using ih _

/-- C1: serialized FIFO dispatch.  For every trace of `speak()` arrivals
and dispatch settlements on one active session (no stop in between), the
sequence of requests dispatched to the synthesis backend followed by the
still-queued requests is exactly the arrival sequence (strict FIFO, no
priority or preemption); at most one dispatch is ever outstanding, and the
number of dispatches begun equals the number settled plus the outstanding
one — so the Nth dispatch begins only once the previous N-1 have settled;
and whenever the queue is non-empty a dispatch is outstanding, i.e. after
a settlement with a non-empty queue the head was dequeued and dispatched
immediately. -/
theorem speak_fifo_serialized (t : List MEvent) (hns : NoStop t) :
    (run machine0 t).dispatched ++
        (run machine0 t).st.speakQueue.map SpeakRequest.id = arrivalIds t ∧
      (run machine0 t).inFlight.length ≤ 1 ∧
      (run machine0 t).dispatched.length =
        (run machine0 t).settledDispatchCount + (run machine0 t).inFlight.length ∧
      ((run machine0 t).st.speakQueue.isEmpty = false →
        (run machine0 t).inFlight.isEmpty = false) := by
  obtain ⟨hinv, hfifo⟩ := run_inv t machine0 hns machineInv_machine0
  obtain ⟨_, _, _, hlen, hcnt, hqe⟩ := hinv
  exact ⟨by simpa [machine0] using hfifo, hlen, hcnt, hqe⟩

/-- C1 witness: a concrete trace of three arrivals interleaved with
settlements satisfies the no-stop hypothesis and the FIFO conclusions. -/
theorem speak_fifo_serialized_witness :
    NoStop [MEvent.arrive (rq 1), MEvent.arrive (rq 2),
        MEvent.settle DispatchOutcome.completed, MEvent.arrive (rq 3),
        MEvent.settle DispatchOutcome.failedResult] ∧
      ((run machine0 [MEvent.arrive (rq 1), MEvent.arrive (rq 2),
          MEvent.settle DispatchOutcome.completed, MEvent.arrive (rq 3),
          MEvent.settle DispatchOutcome.failedResult]).dispatched ++
        (run machine0 [MEvent.arrive (rq 1), MEvent.arrive (rq 2),
          MEvent.settle DispatchOutcome.completed, MEvent.arrive (rq 3),
          MEvent.settle DispatchOutcome.failedResult]).st.speakQueue.map
            SpeakRequest.id =
        arrivalIds [MEvent.arrive (rq 1), MEvent.arrive (rq 2),
          MEvent.settle DispatchOutcome.completed, MEvent.arrive (rq 3),
          MEvent.settle DispatchOutcome.failedResult]) :=
  ⟨by decide,
    (speak_fifo_serialized [MEvent.arrive (rq 1), MEvent.arrive (rq 2),
      MEvent.settle DispatchOutcome.completed, MEvent.arrive (rq 3),
      MEvent.settle DispatchOutcome.failedResult] (by decide)).1⟩

/-- C4: given two non-blank transcript finals where the second equals the
first or the dedup check classifies it as a near-duplicate extension
(difference below 5 characters), the handler forwards exactly one message
to the bot channel.  When the second final arrives within the debounce
window (before the first timeout fires), the pending timeout is replaced
and only the later text is sent; when the first was already processed, the
second is dropped by the dedup check against the immediately preceding
processed utterance and only the first text is sent. -/
theorem transcript_final_dedup_forwards_once (t1 t2 : String)
    (h1 : (jsTrim t1 == "") = false)
    (h1l : (jsToLower (jsTrim t1) == "") = false)
    (h2 : (jsTrim t2 == "") = false)
    (h2l : (jsToLower (jsTrim t2) == "") = false)
    (hdup : skipAsDuplicate (jsToLower (jsTrim t2)) (jsToLower (jsTrim t1)) = true) :
    (recoRun recoInit [RecoEvent.recognizedFinal t1, RecoEvent.recognizedFinal t2,
        RecoEvent.debounceFire]).sentMessages = [t2] ∧
      (recoRun recoInit [RecoEvent.recognizedFinal t1, RecoEvent.debounceFire,
        RecoEvent.processingReset, RecoEvent.recognizedFinal t2,
        RecoEvent.debounceFire]).sentMessages = [t1] := by
  have e1 : onRecognizedFinal recoInit t1 = { recoInit with pendingFinal := some t1 } :=
    onRecognizedFinal_fresh recoInit t1 rfl rfl h1 h1l
  constructor
  · have e2 : onRecognizedFinal { recoInit with pendingFinal := some t1 } t2 =
        { recoInit with pendingFinal := some t2 } := by
      have h := onRecognizedFinal_fresh { recoInit with pendingFinal := some t1 } t2
        rfl rfl h2 h2l
      simpa using h
    show (recoRun (recoStep recoInit (RecoEvent.recognizedFinal t1)) _).sentMessages = _
    simp only [recoStep]
    rw [e1]
    show (recoRun (onRecognizedFinal { recoInit with pendingFinal := some t1 } t2) _).sentMessages = _
    rw [e2]
    rfl
  · have f4 : onRecognizedFinal
        { lastProcessed := jsTrim t1, isProcessingMessage := false,
          pendingFinal := none, sentMessages := [t1] } t2 =
        { lastProcessed := jsTrim t1, isProcessingMessage := false,
          pendingFinal := none, sentMessages := [t1] } :=
      onRecognizedFinal_skip _ t2 h2 hdup
    show (recoRun (recoStep recoInit (RecoEvent.recognizedFinal t1)) _).sentMessages = _
    simp only [recoStep]
    rw [e1]
    show (recoRun (onRecognizedFinal
      { lastProcessed := jsTrim t1, isProcessingMessage := false,
        pendingFinal := none, sentMessages := [t1] } t2) _).sentMessages = _
    rw [f4]
    rfl

/-- C4 witness: the repeated final `hello` satisfies the hypotheses and
one message is forwarded under both schedules. -/
theorem transcript_final_dedup_forwards_once_witness :
    (jsTrim "hello" == "") = false ∧
      (jsToLower (jsTrim "hello") == "") = false ∧
      skipAsDuplicate (jsToLower (jsTrim "hello")) (jsToLower (jsTrim "hello")) = true ∧
      (recoRun recoInit [RecoEvent.recognizedFinal "hello",
        RecoEvent.recognizedFinal "hello",
        RecoEvent.debounceFire]).sentMessages = ["hello"] ∧
      (recoRun recoInit [RecoEvent.recognizedFinal "hello", RecoEvent.debounceFire,
        RecoEvent.processingReset, RecoEvent.recognizedFinal "hello",
        RecoEvent.debounceFire]).sentMessages = ["hello"] := by
  refine ⟨by decide, by decide, by decide, ?_, ?_⟩
  · exact (transcript_final_dedup_forwards_once "hello" "hello" (by decide) (by decide)
      (by decide) (by decide) (by decide)).1
  · exact (transcript_final_dedup_forwards_once "hello" "hello" (by decide) (by decide)
      (by decide) (by decide) (by decide)).2

end Avatar
